import Mathlib

/-!
Shallow embedding of the task-prioritization core in
`src/backend/tasks/scoring.py`.

Modelling choices, in source order:

* Dates.  `calculate_urgency_score` parses `due_date` with
  `datetime.strptime(due_date, "%Y-%m-%d")` and then works only with the
  signed day difference `(due - current_date).days`.  A parsed date is
  embedded as its proleptic Gregorian ordinal (Python `date.toordinal`),
  and the reference date `current_date` as an ordinal as well, so the day
  difference is ordinary `Int` subtraction.  `parseDate` reproduces the
  CPython `_strptime` pattern for `%Y-%m-%d` (a four-ASCII-digit year, a
  one- or two-digit month in 1..12, a one- or two-digit day in 1..31)
  followed by the `date` constructor's calendar validation; every string
  the source rejects with a caught `ValueError` maps to `none`.

* Numbers.  Scores are real numbers and `math.exp` is `Real.exp`; the
  `importance` rating is an `Int` and `estimated_hours` a rational, so
  every branch condition of the source stays decidable.

* Strings.  Python's pervasive `str(...)` conversions mean ids and
  dependency entries are compared as strings; they are embedded as
  `String` outright.  `str.lower` is embedded as an ASCII lowercasing
  (all recognized strategy keys are ASCII).

* The nested `dfs` of `detect_circular_dependencies` mutates `visited`,
  `rec_stack` and `cycles`.  In the source, `rec_stack` always equals the
  set of elements of the `path` argument (both record exactly the chain
  of active calls: a node is added to both on entry to the executing
  branch and `rec_stack` is restored on exit, while each child receives
  `path + [node]` as a copy), so the `node in rec_stack` test is embedded
  as `node ∈ path`.  The remaining mutable state (`visited`, `cycles`)
  threads through `DfsState`.  Recursion is made structural with a fuel
  argument; `detect_circular_dependencies` supplies fuel that provably
  never runs out (the recursion depth is bounded by the number of
  distinct task ids).  Python iterates `task_ids` in unspecified hash-set
  order; the embedding iterates ids in first-occurrence order, one
  legitimate instance of that unspecified order, and none of the claims
  below depend on it.
-/

namespace Scoring

/-- ASCII digit test used by the `%Y-%m-%d` date parser. -/
def isDig (c : Char) : Bool :=
  48 ≤ c.toNat && c.toNat ≤ 57

/-- Digits to the natural number they denote (most significant first). -/
def digitsToNat (l : List Char) : Nat :=
  l.foldl (fun a c => 10 * a + (c.toNat - 48)) 0

/-- Split a character list at every dash (the shape cut by `%Y-%m-%d`). -/
def splitDashes : List Char → List (List Char)
  | [] => [[]]
  | c :: cs =>
    let r := splitDashes cs
    if c = '-' then [] :: r
    else
      match r with
      | [] => [[c]]
      | p :: ps => (c :: p) :: ps

/-- Gregorian leap-year rule (Python `calendar.isleap`). -/
def isLeapYear (y : Nat) : Bool :=
  (y % 4 == 0 && y % 100 != 0) || y % 400 == 0

/-- Length of month `m` of year `y`. -/
def daysInMonth (y m : Nat) : Nat :=
  if m = 2 then (if isLeapYear y then 29 else 28)
  else if m = 4 ∨ m = 6 ∨ m = 9 ∨ m = 11 then 30
  else 31

/-- Days strictly before month `m` in year `y`. -/
def daysBeforeMonth (y m : Nat) : Nat :=
  let base :=
    if m = 1 then 0 else if m = 2 then 31 else if m = 3 then 59
    else if m = 4 then 90 else if m = 5 then 120 else if m = 6 then 151
    else if m = 7 then 181 else if m = 8 then 212 else if m = 9 then 243
    else if m = 10 then 273 else if m = 11 then 304 else 334
  if 3 ≤ m then (if isLeapYear y then base + 1 else base) else base

/-- Proleptic Gregorian ordinal with day 1 = 0001-01-01, matching Python
`date.toordinal`. -/
def toOrdinal (y m d : Nat) : Int :=
  ((y - 1) * 365 + (y - 1) / 4 - (y - 1) / 100 + (y - 1) / 400
    + daysBeforeMonth y m + d : Nat)

/-- Model of `datetime.strptime(s, "%Y-%m-%d").date().toordinal()`:
`some` ordinal on the strings CPython accepts (four-digit year, one- or
two-digit month and day, an existing calendar date with year ≥ 1), and
`none` exactly where the source raises a `ValueError` that
`calculate_urgency_score` catches. -/
def parseDate (s : String) : Option Int :=
  match splitDashes s.data with
  | [ys, ms, ds] =>
    if ys.length = 4 ∧ ys.all isDig = true ∧
        1 ≤ ms.length ∧ ms.length ≤ 2 ∧ ms.all isDig = true ∧
        1 ≤ ds.length ∧ ds.length ≤ 2 ∧ ds.all isDig = true then
      let y := digitsToNat ys
      let m := digitsToNat ms
      let d := digitsToNat ds
      if 1 ≤ y ∧ 1 ≤ m ∧ m ≤ 12 ∧ 1 ≤ d ∧ d ≤ daysInMonth y m then
        some (toOrdinal y m d)
      else none
    else none
  | _ => none

/-- Task record as consumed by the scoring module.  Ids and dependency
entries are `String`s (the source converts both with `str`);
`importance` is the integer rating and `estimated_hours` the numeric
hours estimate. -/
structure Task where
  id : Option String
  title : String
  due_date : Option String
  estimated_hours : Option ℚ
  importance : Option Int
  dependencies : List String
deriving DecidableEq

/-- `str(task.get('id', task.get('title', '')))` from the source. -/
def taskId (t : Task) : String :=
  match t.id with
  | some i => i
  | none => t.title

/-- Post-parse kernel of `calculate_urgency_score` (source lines 85-119):
the branch ladder on `days_until_due`. -/
noncomputable def urgencyFromDays (d : Int) : ℝ × String :=
  if d < 0 then
    let o := d.natAbs
    (min 1 (0.9 + 0.1 * (1 - Real.exp (-(o : ℝ) / 7))),
      "Overdue by " ++ toString o ++ " day(s) - high priority")
  else if d = 0 then (1, "Due today - highest urgency")
  else if d ≤ 1 then (0.95, "Due tomorrow - very high urgency")
  else if d ≤ 3 then (0.85, "Due in 3 days - high urgency")
  else if d ≤ 7 then
    (0.7 + 0.15 * Real.exp (-((d : ℝ) - 3) / 4),
      "Due in " ++ toString d ++ " days - moderate-high urgency")
  else if d ≤ 14 then
    (0.5 + 0.2 * Real.exp (-((d : ℝ) - 7) / 7),
      "Due in " ++ toString d ++ " days - moderate urgency")
  else if d ≤ 30 then
    (0.3 + 0.2 * Real.exp (-((d : ℝ) - 14) / 16),
      "Due in " ++ toString d ++ " days - low-moderate urgency")
  else
    (max 0.1 (0.3 * Real.exp (-((d : ℝ) - 30) / 30)),
      "Due in " ++ toString d ++ " days - low urgency")

/-- `calculate_urgency_score` (source lines 62-122).  `cur` is the ordinal
of the explicit `current_date` argument.  Python's `if not due_date` is
truthy for both `None` and the empty string. -/
noncomputable def calculate_urgency_score (due_date : Option String) (cur : Int) :
    ℝ × String :=
  match due_date with
  | none => (0.5, "No due date specified - neutral urgency")
  | some s =>
    if s = "" then (0.5, "No due date specified - neutral urgency")
    else
      match parseDate s with
      | some o => urgencyFromDays (o - cur)
      | none => (0.5, "Invalid due date format - neutral urgency")

/-- `calculate_importance_score` (source lines 125-153). -/
noncomputable def calculate_importance_score (importance : Option Int) :
    ℝ × String :=
  match importance with
  | none => (0.5, "No importance specified - neutral score")
  | some i0 =>
    let i := max 1 (min 10 i0)
    let score : ℝ := ((i : ℝ) - 1) / 9
    if 9 ≤ i then (score, "Very high importance (" ++ toString i ++ "/10)")
    else if 7 ≤ i then (score, "High importance (" ++ toString i ++ "/10)")
    else if 5 ≤ i then (score, "Moderate importance (" ++ toString i ++ "/10)")
    else if 3 ≤ i then (score, "Low-moderate importance (" ++ toString i ++ "/10)")
    else (score, "Low importance (" ++ toString i ++ "/10)")

/-- `calculate_effort_score` (source lines 156-193). -/
noncomputable def calculate_effort_score (estimated_hours : Option ℚ) :
    ℝ × String :=
  match estimated_hours with
  | none => (0.5, "No effort estimate - neutral score")
  | some h =>
    if h ≤ 0 then (0.5, "No effort estimate - neutral score")
    else if h ≤ 1 then (1, "Very quick task (<1 hour)")
    else if h ≤ 2 then (0.9, "Quick task (1-2 hours)")
    else if h ≤ 4 then (0.75, "Short task (2-4 hours)")
    else if h ≤ 8 then (0.6, "Medium task (4-8 hours)")
    else if h ≤ 16 then (0.4, "Long task (8-16 hours)")
    else if h ≤ 40 then (0.25, "Very long task (16-40 hours)")
    else
      (max 0.1 (0.25 * Real.exp (-((h : ℝ) - 40) / 40)),
        "Extensive task (" ++ toString h ++ " hours)")

/-- `calculate_dependency_score` (source lines 196-223): loop-count of the
tasks whose dependency list contains this task's id, then the banded
score. -/
noncomputable def calculate_dependency_score (task : Task) (all_tasks : List Task) :
    ℝ × String :=
  let tid := taskId task
  let dependents : Nat :=
    all_tasks.foldl (fun acc o => if tid ∈ o.dependencies then acc + 1 else acc) 0
  if dependents = 0 then (0.3, "No tasks depend on this - lower priority")
  else if dependents = 1 then (0.6, "1 task depends on this - moderate priority")
  else if dependents ≤ 3 then
    (0.8, toString dependents ++ " tasks depend on this - high priority")
  else
    (1, toString dependents ++ " tasks depend on this - very high priority (blocking)")

/-- `fastest_wins_score` (source lines 226-247). -/
noncomputable def fastest_wins_score (task : Task) (all_tasks : List Task) (cur : Int) :
    ℝ × String :=
  let e := calculate_effort_score task.estimated_hours
  let u := calculate_urgency_score task.due_date cur
  (e.1 * 0.8 + u.1 * 0.2, "Fastest Wins: " ++ e.2 ++ ". " ++ u.2)

/-- `high_impact_score` (source lines 250-271). -/
noncomputable def high_impact_score (task : Task) (all_tasks : List Task) (cur : Int) :
    ℝ × String :=
  let i := calculate_importance_score task.importance
  let u := calculate_urgency_score task.due_date cur
  (i.1 * 0.7 + u.1 * 0.3, "High Impact: " ++ i.2 ++ ". " ++ u.2)

/-- `deadline_driven_score` (source lines 274-295). -/
noncomputable def deadline_driven_score (task : Task) (all_tasks : List Task) (cur : Int) :
    ℝ × String :=
  let u := calculate_urgency_score task.due_date cur
  let i := calculate_importance_score task.importance
  (u.1 * 0.9 + i.1 * 0.1, "Deadline Driven: " ++ u.2 ++ ". " ++ i.2)

/-- `smart_balance_score` (source lines 298-331). -/
noncomputable def smart_balance_score (task : Task) (all_tasks : List Task) (cur : Int) :
    ℝ × String :=
  let u := calculate_urgency_score task.due_date cur
  let i := calculate_importance_score task.importance
  let e := calculate_effort_score task.estimated_hours
  let dp := calculate_dependency_score task all_tasks
  (u.1 * 0.4 + i.1 * 0.3 + e.1 * 0.2 + dp.1 * 0.1,
    "Smart Balance: " ++ u.2 ++ ". " ++ i.2 ++ ". " ++ e.2 ++ ". " ++ dp.2)

/-- ASCII model of Python `str.lower` on one character. -/
def pyCharLower (c : Char) : Char :=
  if 65 ≤ c.toNat ∧ c.toNat ≤ 90 then Char.ofNat (c.toNat + 32) else c

/-- ASCII model of Python `str.lower` (every recognized strategy key is
ASCII). -/
def pyLower (s : String) : String :=
  ⟨s.data.map pyCharLower⟩

/-- `calculate_priority_score` (source lines 334-361): dictionary dispatch
on `strategy.lower()`, with `smart_balance_score` as the `.get` default. -/
noncomputable def calculate_priority_score (task : Task) (all_tasks : List Task)
    (strategy : String) (cur : Int) : ℝ × String :=
  let sl := pyLower strategy
  if sl = "fastest_wins" then fastest_wins_score task all_tasks cur
  else if sl = "high_impact" then high_impact_score task all_tasks cur
  else if sl = "deadline_driven" then deadline_driven_score task all_tasks cur
  else if sl = "smart_balance" then smart_balance_score task all_tasks cur
  else smart_balance_score task all_tasks cur

/-- The `task_ids` set, as the duplicate-free list of ids in
first-occurrence order. -/
def taskIdsOf (tasks : List Task) : List String :=
  (tasks.map taskId).dedup

/-- `graph.get(node, [])` where `graph` maps each task's id to its declared
dependency strings; a Python dict keeps the last binding of a duplicated
key, hence the reversed search. -/
def graphGet (tasks : List Task) (node : String) : List String :=
  match tasks.reverse.find? (fun t => taskId t == node) with
  | some t => t.dependencies
  | none => []

/-- The mutable state of the traversal: the global `visited` set and the
accumulated `cycles` list. -/
structure DfsState where
  visited : List String
  cycles : List (List String)
deriving DecidableEq

/-- Python `list.index` (only ever applied to an element that occurs). -/
def pyIndex (x : String) : List String → Nat
  | [] => 0
  | a :: l => if a = x then 0 else pyIndex x l + 1

/-- The nested `dfs` of `detect_circular_dependencies` (source lines
34-53).  The `node in rec_stack` test of the source is `node ∈ path`
here, and the recursion is structural on a fuel argument (see the header
comment). -/
def dfsGo (tasks : List Task) : Nat → String → List String → DfsState → DfsState
  | 0, _, _, st => st
  | fuel + 1, node, path, st =>
    if node ∈ path then
      { st with cycles := st.cycles ++ [path.drop (pyIndex node path) ++ [node]] }
    else if node ∈ st.visited then st
    else
      let st1 : DfsState := { st with visited := st.visited ++ [node] }
      ((graphGet tasks node).filter (fun nb => decide (nb ∈ taskIdsOf tasks))).foldl
        (fun s nb => dfsGo tasks fuel nb (path ++ [node]) s) st1

/-- `detect_circular_dependencies` (source lines 10-59). -/
def detect_circular_dependencies (tasks : List Task) : List (List String) :=
  let ids := taskIdsOf tasks
  (ids.foldl
    (fun st tid => if tid ∈ st.visited then st else dfsGo tasks (ids.length + 2) tid [] st)
    ⟨[], []⟩).cycles

/-- A closed dependency walk: nonempty, made of batch ids, and with the
repeated first id closing the loop. -/
def GoodCycle (tasks : List Task) (c : List String) : Prop :=
  (∃ x s, c = x :: (s ++ [x])) ∧ ∀ y ∈ c, y ∈ taskIdsOf tasks

/-- Concrete task used when instantiating universally quantified results:
no due date, one estimated hour, importance 10, no dependencies. -/
def quickTask : Task :=
  { id := some "C", title := "C", due_date := none, estimated_hours := some 1,
    importance := some 10, dependencies := [] }

/-- Concrete self-dependent task used when instantiating the cycle claims. -/
def selfDepTask : Task :=
  { id := some "A", title := "A", due_date := none, estimated_hours := none,
    importance := none, dependencies := ["A"] }

/-- T1 of the end-to-end scenario: importance 10, due on the reference
date, one estimated hour. -/
def taskT1 : Task :=
  { id := some "T1", title := "T1", due_date := some "2026-10-12",
    estimated_hours := some 1, importance := some 10, dependencies := [] }

/-- T2 of the end-to-end scenario: importance 1, due 60 days after the
reference date, 80 estimated hours. -/
def taskT2 : Task :=
  { id := some "T2", title := "T2", due_date := some "2026-12-11",
    estimated_hours := some 80, importance := some 1, dependencies := [] }

/-- Ordinal of the scenario's reference date 2026-10-12. -/
def refOrdinal : Int := 739901

end Scoring

namespace Scoring

/-! ### General helper lemmas -/

theorem pyCharLower_idem (c : Char) : pyCharLower (pyCharLower c) = pyCharLower c := by
  unfold pyCharLower
  by_cases h : 65 ≤ c.toNat ∧ c.toNat ≤ 90
  · rw [if_pos h]
    obtain ⟨h1, h2⟩ := h
    set n := c.toNat with hn
    interval_cases n <;> decide
  · rw [if_neg h, if_neg h]

theorem map_pyCharLower_idem (l : List Char) :
    (l.map pyCharLower).map pyCharLower = l.map pyCharLower := by
  induction l with
  | nil => rfl
  | cons a t ih => simp [List.map_cons, ih, pyCharLower_idem]

theorem pyLower_idem (s : String) : pyLower (pyLower s) = pyLower s :=
  congrArg String.mk (map_pyCharLower_idem s.data)

/-- The loop count in `calculate_dependency_score` is a filtered length. -/
theorem foldl_count_eq_filter_length (tid : String) :
    ∀ (l : List Task) (a : Nat),
      l.foldl (fun acc o => if tid ∈ o.dependencies then acc + 1 else acc) a
        = a + (l.filter (fun o => decide (tid ∈ o.dependencies))).length := by
  intro l
  induction l with
  | nil => intro a; simp
  | cons o t ih =>
    intro a
    by_cases h : tid ∈ o.dependencies
    · simp [List.foldl_cons, List.filter_cons, h, ih]
      omega
    · simp [List.foldl_cons, List.filter_cons, h, ih]

/-! ### Claim C9 -/

/-- Claim C9: `calculate_dependency_score` counts the tasks in the batch
whose dependency list (compared as strings) contains the given task's id,
and maps that count to a score: 0 dependents give 0.3, 1 gives 0.6, 2 or
3 give 0.8, and more than 3 give 1.0. -/
theorem dependency_score_spec (task : Task) (ts : List Task) :
    (calculate_dependency_score task ts).1 =
      (let n := (ts.filter (fun o => decide (taskId task ∈ o.dependencies))).length
       if n = 0 then (0.3 : ℝ) else if n = 1 then 0.6 else if n ≤ 3 then 0.8 else 1) := by
  simp only [calculate_dependency_score, foldl_count_eq_filter_length, Nat.zero_add]
  split_ifs <;> rfl

/-! ### Claim C8 -/

/-- The importance score is always the clamped linear map. -/
theorem importance_val (i : Int) :
    (calculate_importance_score (some i)).1 = (((max 1 (min 10 i) : Int) : ℝ) - 1) / 9 := by
  simp only [calculate_importance_score]
  split_ifs <;> rfl

/-- Claim C8: `calculate_importance_score` returns 0.5 when importance is
missing; otherwise it clamps the integer rating to [1,10] and returns
(clamped − 1)/9, so importance 1 maps to 0.0, importance 10 maps to 1.0,
importance 5 maps to 4/9, and the score is strictly increasing in the
clamped rating. -/
theorem importance_score_spec :
    (calculate_importance_score none).1 = 0.5 ∧
    (∀ i : Int, (calculate_importance_score (some i)).1
        = (((max 1 (min 10 i) : Int) : ℝ) - 1) / 9) ∧
    (calculate_importance_score (some 1)).1 = 0 ∧
    (calculate_importance_score (some 10)).1 = 1 ∧
    (calculate_importance_score (some 5)).1 = 4 / 9 ∧
    (∀ i j : Int, max 1 (min 10 i) < max 1 (min 10 j) →
      (calculate_importance_score (some i)).1 < (calculate_importance_score (some j)).1) := by
  refine ⟨rfl, importance_val, ?_, ?_, ?_, ?_⟩
  · rw [importance_val]; norm_num
  · rw [importance_val]; norm_num
  · rw [importance_val]; norm_num
  · intro i j hij
    rw [importance_val, importance_val]
    have h : ((max 1 (min 10 i) : Int) : ℝ) < ((max 1 (min 10 j) : Int) : ℝ) := by
      exact_mod_cast hij
    linarith

/-- Witness for C8's hypothesis: importance 3 clamps strictly below
importance 4, and the scores compare strictly. -/
theorem importance_score_spec_witness :
    max 1 (min 10 (3 : Int)) < max 1 (min 10 (4 : Int)) ∧
      (calculate_importance_score (some 3)).1 < (calculate_importance_score (some 4)).1 :=
  ⟨by decide, importance_score_spec.2.2.2.2.2 3 4 (by decide)⟩

/-! ### Claim C6 (corrected) and Claim C10 -/

/-- The recognized strategy keys of the dispatch dictionary. -/
def recognizedStrategies : List String :=
  ["fastest_wins", "high_impact", "deadline_driven", "smart_balance"]

/-- Counterexample to C6 as stated: the strategy name "FASTEST_WINS" is
outside the literal recognized set, yet it does not fall back to
smart_balance — it dispatches (case-insensitively) to fastest_wins and
produces a different result. -/
theorem unrecognized_strategy_cex :
    ("FASTEST_WINS" ∉ recognizedStrategies) ∧
      calculate_priority_score quickTask [] "FASTEST_WINS" 0
        ≠ calculate_priority_score quickTask [] "smart_balance" 0 := by
  refine ⟨by decide, fun h => ?_⟩
  have h2 := congrArg Prod.snd h
  have hl : (calculate_priority_score quickTask [] "FASTEST_WINS" 0).2
      = "Fastest Wins: Very quick task (<1 hour). No due date specified - neutral urgency" := rfl
  have hr : (calculate_priority_score quickTask [] "smart_balance" 0).2
      = "Smart Balance: No due date specified - neutral urgency. Very high importance (10/10). Very quick task (<1 hour). No tasks depend on this - lower priority" := rfl
  rw [hl, hr] at h2
  exact absurd h2 (by decide)

/-- Claim C6 (amended): for every task, batch, and reference date, calling
`calculate_priority_score` with a strategy name whose lowercased form is
outside the recognized set returns exactly the same score and explanation
as calling it with strategy "smart_balance". -/
theorem unrecognized_strategy_default (task : Task) (ts : List Task) (s : String)
    (cur : Int) (h : pyLower s ∉ recognizedStrategies) :
    calculate_priority_score task ts s cur
      = calculate_priority_score task ts "smart_balance" cur := by
  have hsb : pyLower "smart_balance" = "smart_balance" := by decide
  simp only [recognizedStrategies, List.mem_cons, List.not_mem_nil, not_or] at h
  obtain ⟨h1, h2, h3, h4, -⟩ := h
  simp only [calculate_priority_score, hsb]
  rw [if_neg h1, if_neg h2, if_neg h3, if_neg h4]
  simp

/-- Witness for C6 (amended) at the unrecognized name "totally_bogus". -/
theorem unrecognized_strategy_default_witness :
    (pyLower "totally_bogus" ∉ recognizedStrategies) ∧
      calculate_priority_score quickTask [] "totally_bogus" 0
        = calculate_priority_score quickTask [] "smart_balance" 0 :=
  ⟨by decide, unrecognized_strategy_default quickTask [] "totally_bogus" 0 (by decide)⟩

/-- Claim C10: strategy dispatch is case-insensitive — every strategy
string gives the same result as its lowercased form, and in particular
"FASTEST_WINS" dispatches to the fastest_wins strategy rather than
falling back to smart_balance. -/
theorem priority_case_insensitive :
    ∀ (task : Task) (ts : List Task) (s : String) (cur : Int),
      calculate_priority_score task ts s cur
          = calculate_priority_score task ts (pyLower s) cur ∧
        calculate_priority_score task ts "FASTEST_WINS" cur
          = fastest_wins_score task ts cur := by
  intro task ts s cur
  constructor
  · simp only [calculate_priority_score, pyLower_idem]
  · have h : pyLower "FASTEST_WINS" = "fastest_wins" := by decide
    simp [calculate_priority_score, h]

/-! ### Claim C7 (corrected) -/

/-- Claim C7 (amended): for every nonempty due-date string that does not
parse as a calendar date and every reference date,
`calculate_urgency_score` returns the neutral score 0.5 with the
invalid-format explanation (the empty string instead takes the source's
falsy `if not due_date` branch and is reported as "no due date"). -/
theorem urgency_invalid_format (s : String) (cur : Int) (h0 : s ≠ "")
    (h1 : parseDate s = none) :
    calculate_urgency_score (some s) cur
      = (0.5, "Invalid due date format - neutral urgency") := by
  simp only [calculate_urgency_score]
  rw [if_neg h0, h1]

/-- Witness for C7 (amended) at the unparseable string "not-a-date". -/
theorem urgency_invalid_format_witness :
    (("not-a-date" : String) ≠ "") ∧ parseDate "not-a-date" = none ∧
      calculate_urgency_score (some "not-a-date") 0
        = (0.5, "Invalid due date format - neutral urgency") :=
  ⟨by decide, by decide, urgency_invalid_format "not-a-date" 0 (by decide) (by decide)⟩

/-- Counterexample to C7 as stated: the empty string does not parse as a
calendar date, yet the explanation returned for it is the no-due-date
one, not the invalid-format one. -/
theorem urgency_empty_string_cex :
    parseDate "" = none ∧
      calculate_urgency_score (some "") 0
        = (0.5, "No due date specified - neutral urgency") ∧
      ("No due date specified - neutral urgency" : String)
        ≠ "Invalid due date format - neutral urgency" := by
  refine ⟨by decide, ?_, by decide⟩
  simp [calculate_urgency_score]


/-! ### Urgency branch values -/

theorem uval_neg (d : Int) (h : d < 0) :
    (urgencyFromDays d).1 = min 1 (0.9 + 0.1 * (1 - Real.exp (-(d.natAbs : ℝ) / 7))) := by
  unfold urgencyFromDays
  rw [if_pos h]

theorem uval_zero : (urgencyFromDays 0).1 = 1 := by
  unfold urgencyFromDays
  norm_num

theorem uval_one : (urgencyFromDays 1).1 = 0.95 := by
  unfold urgencyFromDays
  norm_num

theorem uval_two_three (d : Int) (h1 : 2 ≤ d) (h2 : d ≤ 3) :
    (urgencyFromDays d).1 = 0.85 := by
  unfold urgencyFromDays
  split_ifs <;> first | rfl | (exfalso; omega)

theorem uval_band47 (d : Int) (h1 : 4 ≤ d) (h2 : d ≤ 7) :
    (urgencyFromDays d).1 = 0.7 + 0.15 * Real.exp (-((d : ℝ) - 3) / 4) := by
  unfold urgencyFromDays
  split_ifs <;> first | rfl | (exfalso; omega)

theorem uval_band814 (d : Int) (h1 : 8 ≤ d) (h2 : d ≤ 14) :
    (urgencyFromDays d).1 = 0.5 + 0.2 * Real.exp (-((d : ℝ) - 7) / 7) := by
  unfold urgencyFromDays
  split_ifs <;> first | rfl | (exfalso; omega)

theorem uval_band1530 (d : Int) (h1 : 15 ≤ d) (h2 : d ≤ 30) :
    (urgencyFromDays d).1 = 0.3 + 0.2 * Real.exp (-((d : ℝ) - 14) / 16) := by
  unfold urgencyFromDays
  split_ifs <;> first | rfl | (exfalso; omega)

theorem uval_far (d : Int) (h1 : 31 ≤ d) :
    (urgencyFromDays d).1 = max 0.1 (0.3 * Real.exp (-((d : ℝ) - 30) / 30)) := by
  unfold urgencyFromDays
  split_ifs <;> first | rfl | (exfalso; omega)

theorem exp_le_one_of_nonpos {x : ℝ} (h : x ≤ 0) : Real.exp x ≤ 1 := by
  have := Real.exp_le_exp.mpr h
  rwa [Real.exp_zero] at this

/-! ### Score bounds -/

theorem urgencyFromDays_bounds (d : Int) :
    0 ≤ (urgencyFromDays d).1 ∧ (urgencyFromDays d).1 ≤ 1 := by
  by_cases hneg : d < 0
  · rw [uval_neg d hneg]
    have hx : Real.exp (-(d.natAbs : ℝ) / 7) ≤ 1 := by
      apply exp_le_one_of_nonpos
      have : (0 : ℝ) ≤ (d.natAbs : ℝ) := Nat.cast_nonneg _
      linarith
    refine ⟨le_min (by norm_num) (by linarith), min_le_left _ _⟩
  · push_neg at hneg
    by_cases h0 : d = 0
    · subst h0; rw [uval_zero]; norm_num
    by_cases h1 : d ≤ 1
    · have : d = 1 := by omega
      subst this; rw [uval_one]; norm_num
    by_cases h3 : d ≤ 3
    · rw [uval_two_three d (by omega) h3]; norm_num
    by_cases h7 : d ≤ 7
    · rw [uval_band47 d (by omega) h7]
      have hc : (4 : ℝ) ≤ (d : ℝ) := by exact_mod_cast (by omega : (4 : Int) ≤ d)
      have hp := Real.exp_pos (-((d : ℝ) - 3) / 4)
      have hu : Real.exp (-((d : ℝ) - 3) / 4) ≤ 1 := exp_le_one_of_nonpos (by linarith)
      constructor <;> linarith
    by_cases h14 : d ≤ 14
    · rw [uval_band814 d (by omega) h14]
      have hc : (8 : ℝ) ≤ (d : ℝ) := by exact_mod_cast (by omega : (8 : Int) ≤ d)
      have hp := Real.exp_pos (-((d : ℝ) - 7) / 7)
      have hu : Real.exp (-((d : ℝ) - 7) / 7) ≤ 1 := exp_le_one_of_nonpos (by linarith)
      constructor <;> linarith
    by_cases h30 : d ≤ 30
    · rw [uval_band1530 d (by omega) h30]
      have hc : (15 : ℝ) ≤ (d : ℝ) := by exact_mod_cast (by omega : (15 : Int) ≤ d)
      have hp := Real.exp_pos (-((d : ℝ) - 14) / 16)
      have hu : Real.exp (-((d : ℝ) - 14) / 16) ≤ 1 := exp_le_one_of_nonpos (by linarith)
      constructor <;> linarith
    · rw [uval_far d (by omega)]
      have hc : (31 : ℝ) ≤ (d : ℝ) := by exact_mod_cast (by omega : (31 : Int) ≤ d)
      have hu : Real.exp (-((d : ℝ) - 30) / 30) ≤ 1 := exp_le_one_of_nonpos (by linarith)
      constructor
      · exact le_trans (by norm_num) (le_max_left _ _)
      · exact max_le (by norm_num) (by linarith)

theorem urgency_bounds (due : Option String) (cur : Int) :
    0 ≤ (calculate_urgency_score due cur).1 ∧ (calculate_urgency_score due cur).1 ≤ 1 := by
  cases due with
  | none => constructor <;> norm_num [calculate_urgency_score]
  | some s =>
    by_cases hs : s = ""
    · constructor <;> norm_num [calculate_urgency_score, hs]
    · cases hp : parseDate s with
      | none => constructor <;> norm_num [calculate_urgency_score, hs, hp]
      | some o =>
        have h := urgencyFromDays_bounds (o - cur)
        constructor <;> simp [calculate_urgency_score, hs, hp, h.1, h.2]

theorem importance_bounds (imp : Option Int) :
    0 ≤ (calculate_importance_score imp).1 ∧ (calculate_importance_score imp).1 ≤ 1 := by
  cases imp with
  | none => constructor <;> norm_num [calculate_importance_score]
  | some i =>
    rw [importance_val]
    have hlo : (1 : Int) ≤ max 1 (min 10 i) := le_max_left _ _
    have hhi : max 1 (min 10 i) ≤ 10 := max_le (by norm_num) (min_le_left _ _)
    have hlo' : (1 : ℝ) ≤ ((max 1 (min 10 i) : Int) : ℝ) := by exact_mod_cast hlo
    have hhi' : ((max 1 (min 10 i) : Int) : ℝ) ≤ 10 := by exact_mod_cast hhi
    constructor <;> [linarith; linarith]

theorem effort_bounds (hours : Option ℚ) :
    0 ≤ (calculate_effort_score hours).1 ∧ (calculate_effort_score hours).1 ≤ 1 := by
  cases hours with
  | none => constructor <;> norm_num [calculate_effort_score]
  | some q =>
    simp only [calculate_effort_score]
    split_ifs with e0 e1 e2 e4 e8 e16 e40
    · exact ⟨by norm_num, by norm_num⟩
    · exact ⟨by norm_num, by norm_num⟩
    · exact ⟨by norm_num, by norm_num⟩
    · exact ⟨by norm_num, by norm_num⟩
    · exact ⟨by norm_num, by norm_num⟩
    · exact ⟨by norm_num, by norm_num⟩
    · exact ⟨by norm_num, by norm_num⟩
    · have hq : (40 : ℝ) < (q : ℝ) := by exact_mod_cast (by linarith [not_le.mp e40] : (40 : ℚ) < q)
      have hu : Real.exp (-((q : ℝ) - 40) / 40) ≤ 1 := exp_le_one_of_nonpos (by linarith)
      constructor
      · exact le_trans (by norm_num) (le_max_left _ _)
      · exact max_le (by norm_num) (by linarith)

theorem dependency_bounds (task : Task) (ts : List Task) :
    0 ≤ (calculate_dependency_score task ts).1 ∧ (calculate_dependency_score task ts).1 ≤ 1 := by
  simp only [calculate_dependency_score]
  split_ifs <;> exact ⟨by norm_num, by norm_num⟩

theorem fastest_wins_bounds (task : Task) (ts : List Task) (cur : Int) :
    0 ≤ (fastest_wins_score task ts cur).1 ∧ (fastest_wins_score task ts cur).1 ≤ 1 := by
  have he := effort_bounds task.estimated_hours
  have hu := urgency_bounds task.due_date cur
  have heq : (fastest_wins_score task ts cur).1
      = (calculate_effort_score task.estimated_hours).1 * 0.8
        + (calculate_urgency_score task.due_date cur).1 * 0.2 := rfl
  rw [heq]
  constructor <;> [nlinarith [he.1, hu.1]; nlinarith [he.2, hu.2]]

theorem high_impact_bounds (task : Task) (ts : List Task) (cur : Int) :
    0 ≤ (high_impact_score task ts cur).1 ∧ (high_impact_score task ts cur).1 ≤ 1 := by
  have hi := importance_bounds task.importance
  have hu := urgency_bounds task.due_date cur
  have heq : (high_impact_score task ts cur).1
      = (calculate_importance_score task.importance).1 * 0.7
        + (calculate_urgency_score task.due_date cur).1 * 0.3 := rfl
  rw [heq]
  constructor <;> [nlinarith [hi.1, hu.1]; nlinarith [hi.2, hu.2]]

theorem deadline_driven_bounds (task : Task) (ts : List Task) (cur : Int) :
    0 ≤ (deadline_driven_score task ts cur).1 ∧ (deadline_driven_score task ts cur).1 ≤ 1 := by
  have hi := importance_bounds task.importance
  have hu := urgency_bounds task.due_date cur
  have heq : (deadline_driven_score task ts cur).1
      = (calculate_urgency_score task.due_date cur).1 * 0.9
        + (calculate_importance_score task.importance).1 * 0.1 := rfl
  rw [heq]
  constructor <;> [nlinarith [hi.1, hu.1]; nlinarith [hi.2, hu.2]]

theorem smart_balance_bounds (task : Task) (ts : List Task) (cur : Int) :
    0 ≤ (smart_balance_score task ts cur).1 ∧ (smart_balance_score task ts cur).1 ≤ 1 := by
  have hu := urgency_bounds task.due_date cur
  have hi := importance_bounds task.importance
  have he := effort_bounds task.estimated_hours
  have hd := dependency_bounds task ts
  have heq : (smart_balance_score task ts cur).1
      = (calculate_urgency_score task.due_date cur).1 * 0.4
        + (calculate_importance_score task.importance).1 * 0.3
        + (calculate_effort_score task.estimated_hours).1 * 0.2
        + (calculate_dependency_score task ts).1 * 0.1 := rfl
  rw [heq]
  constructor
  · nlinarith [hu.1, hi.1, he.1, hd.1]
  · nlinarith [hu.2, hi.2, he.2, hd.2]

theorem priority_bounds (task : Task) (ts : List Task) (strategy : String) (cur : Int) :
    0 ≤ (calculate_priority_score task ts strategy cur).1
      ∧ (calculate_priority_score task ts strategy cur).1 ≤ 1 := by
  simp only [calculate_priority_score]
  split_ifs
  · exact fastest_wins_bounds task ts cur
  · exact high_impact_bounds task ts cur
  · exact deadline_driven_bounds task ts cur
  · exact smart_balance_bounds task ts cur
  · exact smart_balance_bounds task ts cur

/-! ### Claim C1 -/

/-- Claim C1: for every task, batch, strategy name, and reference date,
each of the four component scorers (urgency, importance, effort,
dependency fan-in) returns a score in [0,1], each of the four strategy
combiners returns a score in [0,1], and `calculate_priority_score` under
every strategy name returns a score in [0,1]. -/
theorem scores_in_unit_interval :
    ∀ (task : Task) (ts : List Task) (strategy : String) (cur : Int)
      (due : Option String) (imp : Option Int) (hours : Option ℚ),
      (0 ≤ (calculate_urgency_score due cur).1 ∧ (calculate_urgency_score due cur).1 ≤ 1) ∧
      (0 ≤ (calculate_importance_score imp).1 ∧ (calculate_importance_score imp).1 ≤ 1) ∧
      (0 ≤ (calculate_effort_score hours).1 ∧ (calculate_effort_score hours).1 ≤ 1) ∧
      (0 ≤ (calculate_dependency_score task ts).1
        ∧ (calculate_dependency_score task ts).1 ≤ 1) ∧
      (0 ≤ (fastest_wins_score task ts cur).1 ∧ (fastest_wins_score task ts cur).1 ≤ 1) ∧
      (0 ≤ (high_impact_score task ts cur).1 ∧ (high_impact_score task ts cur).1 ≤ 1) ∧
      (0 ≤ (deadline_driven_score task ts cur).1
        ∧ (deadline_driven_score task ts cur).1 ≤ 1) ∧
      (0 ≤ (smart_balance_score task ts cur).1 ∧ (smart_balance_score task ts cur).1 ≤ 1) ∧
      (0 ≤ (calculate_priority_score task ts strategy cur).1
        ∧ (calculate_priority_score task ts strategy cur).1 ≤ 1) :=
  fun task ts strategy cur due imp hours =>
    ⟨urgency_bounds due cur, importance_bounds imp, effort_bounds hours,
      dependency_bounds task ts, fastest_wins_bounds task ts cur,
      high_impact_bounds task ts cur, deadline_driven_bounds task ts cur,
      smart_balance_bounds task ts cur, priority_bounds task ts strategy cur⟩


/-! ### Claim C2 (corrected): urgency monotonicity -/

/-- One step of the post-due-today ladder is non-increasing. -/
theorem uscore_step (d : Int) (hd : 0 ≤ d) :
    (urgencyFromDays (d + 1)).1 ≤ (urgencyFromDays d).1 := by
  by_cases h0 : d = 0
  · subst h0
    rw [show ((0 : Int) + 1) = 1 by norm_num, uval_one, uval_zero]
    norm_num
  by_cases h1 : d = 1
  · subst h1
    rw [show ((1 : Int) + 1) = 2 by norm_num,
      uval_two_three 2 (by norm_num) (by norm_num), uval_one]
    norm_num
  by_cases h2 : d = 2
  · subst h2
    rw [show ((2 : Int) + 1) = 3 by norm_num,
      uval_two_three 3 (by norm_num) (by norm_num),
      uval_two_three 2 (by norm_num) (by norm_num)]
  by_cases h3 : d = 3
  · subst h3
    rw [show ((3 : Int) + 1) = 4 by norm_num,
      uval_band47 4 (by norm_num) (by norm_num),
      uval_two_three 3 (by norm_num) (by norm_num)]
    have hc : ((4 : Int) : ℝ) = 4 := by norm_num
    rw [hc]
    have hu : Real.exp (-((4 : ℝ) - 3) / 4) ≤ 1 := exp_le_one_of_nonpos (by norm_num)
    linarith
  by_cases h46 : d ≤ 6
  · rw [uval_band47 (d + 1) (by omega) (by omega), uval_band47 d (by omega) (by omega)]
    have hc : ((d + 1 : Int) : ℝ) = (d : ℝ) + 1 := by push_cast; ring
    rw [hc]
    have hexp := Real.exp_le_exp.mpr
      (show -(((d : ℝ) + 1) - 3) / 4 ≤ -((d : ℝ) - 3) / 4 by linarith)
    linarith
  by_cases h7 : d = 7
  · subst h7
    rw [show ((7 : Int) + 1) = 8 by norm_num,
      uval_band814 8 (by norm_num) (by norm_num),
      uval_band47 7 (by norm_num) (by norm_num)]
    have hc8 : ((8 : Int) : ℝ) = 8 := by norm_num
    have hc7 : ((7 : Int) : ℝ) = 7 := by norm_num
    rw [hc8, hc7]
    have hu : Real.exp (-((8 : ℝ) - 7) / 7) ≤ 1 := exp_le_one_of_nonpos (by norm_num)
    have hp := Real.exp_pos (-((7 : ℝ) - 3) / 4)
    linarith
  by_cases h813 : d ≤ 13
  · rw [uval_band814 (d + 1) (by omega) (by omega), uval_band814 d (by omega) (by omega)]
    have hc : ((d + 1 : Int) : ℝ) = (d : ℝ) + 1 := by push_cast; ring
    rw [hc]
    have hexp := Real.exp_le_exp.mpr
      (show -(((d : ℝ) + 1) - 7) / 7 ≤ -((d : ℝ) - 7) / 7 by linarith)
    linarith
  by_cases h14 : d = 14
  · subst h14
    rw [show ((14 : Int) + 1) = 15 by norm_num,
      uval_band1530 15 (by norm_num) (by norm_num),
      uval_band814 14 (by norm_num) (by norm_num)]
    have hc15 : ((15 : Int) : ℝ) = 15 := by norm_num
    have hc14 : ((14 : Int) : ℝ) = 14 := by norm_num
    rw [hc15, hc14]
    have hu : Real.exp (-((15 : ℝ) - 14) / 16) ≤ 1 := exp_le_one_of_nonpos (by norm_num)
    have hp := Real.exp_pos (-((14 : ℝ) - 7) / 7)
    linarith
  by_cases h1529 : d ≤ 29
  · rw [uval_band1530 (d + 1) (by omega) (by omega), uval_band1530 d (by omega) (by omega)]
    have hc : ((d + 1 : Int) : ℝ) = (d : ℝ) + 1 := by push_cast; ring
    rw [hc]
    have hexp := Real.exp_le_exp.mpr
      (show -(((d : ℝ) + 1) - 14) / 16 ≤ -((d : ℝ) - 14) / 16 by linarith)
    linarith
  by_cases h30 : d = 30
  · subst h30
    rw [show ((30 : Int) + 1) = 31 by norm_num, uval_far 31 (by norm_num),
      uval_band1530 30 (by norm_num) (by norm_num)]
    have hc31 : ((31 : Int) : ℝ) = 31 := by norm_num
    have hc30 : ((30 : Int) : ℝ) = 30 := by norm_num
    rw [hc31, hc30]
    have hu : Real.exp (-((31 : ℝ) - 30) / 30) ≤ 1 := exp_le_one_of_nonpos (by norm_num)
    have hp := Real.exp_pos (-((30 : ℝ) - 14) / 16)
    apply max_le
    · linarith
    · linarith
  · rw [uval_far (d + 1) (by omega), uval_far d (by omega)]
    have hc : ((d + 1 : Int) : ℝ) = (d : ℝ) + 1 := by push_cast; ring
    rw [hc]
    have hexp := Real.exp_le_exp.mpr
      (show -(((d : ℝ) + 1) - 30) / 30 ≤ -((d : ℝ) - 30) / 30 by linarith)
    exact max_le_max le_rfl (by linarith)

/-- The whole post-due-today ladder is non-increasing. -/
theorem uscore_antitone (d1 d2 : Int) (h0 : 0 ≤ d1) (h : d1 ≤ d2) :
    (urgencyFromDays d2).1 ≤ (urgencyFromDays d1).1 :=
  @Int.le_induction (fun n => (urgencyFromDays n).1 ≤ (urgencyFromDays d1).1) d1
    le_rfl (fun n hn ih => le_trans (uscore_step n (le_trans h0 hn)) ih) d2 h

/-- The overdue branch is strictly increasing in the number of overdue
days. -/
theorem uscore_overdue_strict (d1 d2 : Int) (h21 : d2 < d1) (h1 : d1 < 0) :
    (urgencyFromDays d1).1 < (urgencyFromDays d2).1 := by
  rw [uval_neg d1 h1, uval_neg d2 (by omega)]
  have ha1 : ((d1.natAbs : ℝ)) = -(d1 : ℝ) := by
    rw [Int.cast_natAbs, Int.cast_abs]
    exact abs_of_neg (by exact_mod_cast h1)
  have ha2 : ((d2.natAbs : ℝ)) = -(d2 : ℝ) := by
    rw [Int.cast_natAbs, Int.cast_abs]
    exact abs_of_neg (by exact_mod_cast (show d2 < 0 by omega))
  rw [ha1, ha2, neg_neg, neg_neg]
  have hc : (d2 : ℝ) < (d1 : ℝ) := by exact_mod_cast h21
  have hexp : Real.exp ((d2 : ℝ) / 7) < Real.exp ((d1 : ℝ) / 7) :=
    Real.exp_lt_exp.mpr (by linarith)
  have hp1 := Real.exp_pos ((d1 : ℝ) / 7)
  have hp2 := Real.exp_pos ((d2 : ℝ) / 7)
  rw [min_eq_right (by linarith : 0.9 + 0.1 * (1 - Real.exp ((d1 : ℝ) / 7)) ≤ 1),
    min_eq_right (by linarith : 0.9 + 0.1 * (1 - Real.exp ((d2 : ℝ) / 7)) ≤ 1)]
  linarith

/-- For a parseable, hence nonempty, due-date string the urgency score is
the ladder value at the day difference. -/
theorem urgency_parse_reduce (s : String) (cur o : Int) (hp : parseDate s = some o) :
    calculate_urgency_score (some s) cur = urgencyFromDays (o - cur) := by
  have hs : s ≠ "" := by
    intro he
    subst he
    exact Option.noConfusion (hp.symm.trans (by decide : parseDate "" = none))
  simp only [calculate_urgency_score, if_neg hs, hp]

/-- Claim C2 (amended): for a fixed reference date, the urgency score is
exactly 1.0 when the due date equals the reference date, exactly 0.5 when
there is no due date, is non-increasing (not strictly decreasing: several
day counts share a banded score) as the number of days until the due date
increases beyond zero, and strictly increases as the number of days
overdue increases while never exceeding 1.0. -/
theorem urgency_monotonicity :
    (∀ cur : Int, (calculate_urgency_score none cur).1 = 0.5) ∧
    (∀ (s : String) (cur o : Int), parseDate s = some o → o = cur →
      (calculate_urgency_score (some s) cur).1 = 1) ∧
    (∀ (s1 s2 : String) (cur o1 o2 : Int),
      parseDate s1 = some o1 → parseDate s2 = some o2 →
      0 ≤ o1 - cur → o1 - cur < o2 - cur →
      (calculate_urgency_score (some s2) cur).1
        ≤ (calculate_urgency_score (some s1) cur).1) ∧
    (∀ (s1 s2 : String) (cur o1 o2 : Int),
      parseDate s1 = some o1 → parseDate s2 = some o2 →
      o2 - cur < o1 - cur → o1 - cur < 0 →
      (calculate_urgency_score (some s1) cur).1
        < (calculate_urgency_score (some s2) cur).1) ∧
    (∀ (s : String) (cur o : Int), parseDate s = some o → o - cur < 0 →
      (calculate_urgency_score (some s) cur).1 ≤ 1) := by
  refine ⟨fun cur => rfl, ?_, ?_, ?_, ?_⟩
  · intro s cur o hp he
    rw [urgency_parse_reduce s cur o hp, he, sub_self, uval_zero]
  · intro s1 s2 cur o1 o2 hp1 hp2 hge hlt
    rw [urgency_parse_reduce s1 cur o1 hp1, urgency_parse_reduce s2 cur o2 hp2]
    exact uscore_antitone (o1 - cur) (o2 - cur) hge (le_of_lt hlt)
  · intro s1 s2 cur o1 o2 hp1 hp2 hlt hneg
    rw [urgency_parse_reduce s1 cur o1 hp1, urgency_parse_reduce s2 cur o2 hp2]
    exact uscore_overdue_strict (o1 - cur) (o2 - cur) hlt hneg
  · intro s cur o hp hneg
    rw [urgency_parse_reduce s cur o hp, uval_neg (o - cur) hneg]
    exact min_le_left _ _

/-- Witness for C2 (amended) around the reference date 2026-10-12. -/
theorem urgency_monotonicity_witness :
    (calculate_urgency_score (some "2026-10-12") 739901).1 = 1 ∧
    (calculate_urgency_score (some "2026-10-18") 739901).1
      ≤ (calculate_urgency_score (some "2026-10-17") 739901).1 ∧
    (calculate_urgency_score (some "2026-10-10") 739901).1
      < (calculate_urgency_score (some "2026-10-09") 739901).1 ∧
    (calculate_urgency_score (some "2026-10-11") 739901).1 ≤ 1 :=
  ⟨urgency_monotonicity.2.1 "2026-10-12" 739901 739901 (by decide) rfl,
    urgency_monotonicity.2.2.1 "2026-10-17" "2026-10-18" 739901 739906 739907
      (by decide) (by decide) (by decide) (by decide),
    urgency_monotonicity.2.2.2.1 "2026-10-10" "2026-10-09" 739901 739899 739898
      (by decide) (by decide) (by decide) (by decide),
    urgency_monotonicity.2.2.2.2 "2026-10-11" 739901 739900 (by decide) (by decide)⟩

/-- Counterexample to C2 as stated: with reference date 2026-10-12, the
due dates two and three days out both score exactly 0.85, so the urgency
score does not strictly decrease as days-until-due grows beyond zero. -/
theorem urgency_strict_decrease_cex :
    parseDate "2026-10-14" = some (739901 + 2) ∧
    parseDate "2026-10-15" = some (739901 + 3) ∧
    (calculate_urgency_score (some "2026-10-15") 739901).1
      = (calculate_urgency_score (some "2026-10-14") 739901).1 := by
  refine ⟨by decide, by decide, ?_⟩
  rw [urgency_parse_reduce "2026-10-15" 739901 739904 (by decide),
    urgency_parse_reduce "2026-10-14" 739901 739903 (by decide),
    uval_two_three (739904 - 739901) (by norm_num) (by norm_num),
    uval_two_three (739903 - 739901) (by norm_num) (by norm_num)]


/-! ### Claim C3: end-to-end scenario -/

/-- Claim C3: in the two-task batch where T1 has importance 10, a due
date equal to the reference date and 1 estimated hour, and T2 has
importance 1, a due date 60 days out and 80 estimated hours, the
smart_balance strategy scores T1 strictly above T2. -/
theorem smart_balance_scenario :
    (calculate_priority_score taskT1 [taskT1, taskT2] "smart_balance" refOrdinal).1
      > (calculate_priority_score taskT2 [taskT1, taskT2] "smart_balance" refOrdinal).1 := by
  have hsb : pyLower "smart_balance" = "smart_balance" := by decide
  have hdisp : ∀ t : Task,
      calculate_priority_score t [taskT1, taskT2] "smart_balance" refOrdinal
        = smart_balance_score t [taskT1, taskT2] refOrdinal := by
    intro t
    simp [calculate_priority_score, hsb]
  rw [hdisp, hdisp]
  have hT1 : (smart_balance_score taskT1 [taskT1, taskT2] refOrdinal).1
      = (calculate_urgency_score taskT1.due_date refOrdinal).1 * 0.4
        + (calculate_importance_score taskT1.importance).1 * 0.3
        + (calculate_effort_score taskT1.estimated_hours).1 * 0.2
        + (calculate_dependency_score taskT1 [taskT1, taskT2]).1 * 0.1 := rfl
  have hT2 : (smart_balance_score taskT2 [taskT1, taskT2] refOrdinal).1
      = (calculate_urgency_score taskT2.due_date refOrdinal).1 * 0.4
        + (calculate_importance_score taskT2.importance).1 * 0.3
        + (calculate_effort_score taskT2.estimated_hours).1 * 0.2
        + (calculate_dependency_score taskT2 [taskT1, taskT2]).1 * 0.1 := rfl
  rw [hT1, hT2]
  have hu1 : (calculate_urgency_score taskT1.due_date refOrdinal).1 = 1 := by
    show (calculate_urgency_score (some "2026-10-12") refOrdinal).1 = 1
    rw [urgency_parse_reduce "2026-10-12" refOrdinal 739901 (by decide),
      show ((739901 : Int) - refOrdinal) = 0 by decide, uval_zero]
  have hi1 : (calculate_importance_score taskT1.importance).1 = 1 := by
    show (calculate_importance_score (some 10)).1 = 1
    rw [importance_val, show max 1 (min 10 (10 : Int)) = 10 by decide]
    norm_num
  have he1 : (calculate_effort_score taskT1.estimated_hours).1 = 1 := by
    show (calculate_effort_score (some 1)).1 = 1
    norm_num [calculate_effort_score]
  have hd1 : (calculate_dependency_score taskT1 [taskT1, taskT2]).1 = 0.3 := by
    norm_num [calculate_dependency_score, taskId, taskT1, taskT2]
  have hu2 : (calculate_urgency_score taskT2.due_date refOrdinal).1 ≤ 0.3 := by
    show (calculate_urgency_score (some "2026-12-11") refOrdinal).1 ≤ 0.3
    rw [urgency_parse_reduce "2026-12-11" refOrdinal 739961 (by decide),
      show ((739961 : Int) - refOrdinal) = 60 by decide, uval_far 60 (by norm_num)]
    have hc : ((60 : Int) : ℝ) = 60 := by norm_num
    rw [hc]
    have hu : Real.exp (-((60 : ℝ) - 30) / 30) ≤ 1 := exp_le_one_of_nonpos (by norm_num)
    exact max_le (by norm_num) (by linarith)
  have hi2 : (calculate_importance_score taskT2.importance).1 = 0 := by
    show (calculate_importance_score (some 1)).1 = 0
    rw [importance_val, show max 1 (min 10 (1 : Int)) = 1 by decide]
    norm_num
  have he2 : (calculate_effort_score taskT2.estimated_hours).1 ≤ 0.25 := by
    show (calculate_effort_score (some 80)).1 ≤ 0.25
    have hval : (calculate_effort_score (some 80)).1
        = max 0.1 (0.25 * Real.exp (-(((80 : ℚ) : ℝ) - 40) / 40)) := by
      norm_num [calculate_effort_score]
    rw [hval, show (((80 : ℚ) : ℝ)) = 80 by norm_num]
    have hu : Real.exp (-((80 : ℝ) - 40) / 40) ≤ 1 := exp_le_one_of_nonpos (by norm_num)
    exact max_le (by norm_num) (by linarith)
  have hd2 : (calculate_dependency_score taskT2 [taskT1, taskT2]).1 = 0.3 := by
    norm_num [calculate_dependency_score, taskId, taskT1, taskT2]
  rw [hu1, hi1, he1, hd1, hi2, hd2]
  linarith [hu2, he2]


/-! ### Cycle-detector helper lemmas -/

/-- Fold invariant: a property preserved by every step holds of the
result. -/
theorem foldl_preserve {α β : Type} {P : β → Prop} (f : β → α → β) :
    ∀ (l : List α) (s : β), P s → (∀ b a, a ∈ l → P b → P (f b a)) → P (l.foldl f s) := by
  intro l
  induction l with
  | nil => intro s hs _; exact hs
  | cons a as ih =>
    intro s hs hstep
    rw [List.foldl_cons]
    exact ih (f s a) (hstep s a (List.mem_cons_self a as) hs)
      (fun b x hx hb => hstep b x (List.mem_cons_of_mem a hx) hb)

/-- Python `list.index` finds the first occurrence: dropping up to it
leaves the element in front. -/
theorem pyIndex_drop (x : String) :
    ∀ (l : List String), x ∈ l → ∃ s, l.drop (pyIndex x l) = x :: s := by
  intro l
  induction l with
  | nil => intro h; simp at h
  | cons a as ih =>
    intro h
    by_cases ha : a = x
    · subst ha
      exact ⟨as, by simp [pyIndex]⟩
    · rcases List.mem_cons.mp h with he | h'
      · exact absurd he.symm ha
      · obtain ⟨s, hs⟩ := ih h'
        exact ⟨s, by simpa [pyIndex, ha] using hs⟩

/-- `list.index` of a freshly appended element not occurring earlier. -/
theorem pyIndex_append_self (x : String) :
    ∀ (l : List String), x ∉ l → pyIndex x (l ++ [x]) = l.length := by
  intro l
  induction l with
  | nil => intro _; simp [pyIndex]
  | cons a as ih =>
    intro h
    have ha : ¬ a = x := by
      intro he
      apply h
      rw [← he]
      exact List.mem_cons_self a as
    have h' : x ∉ as := fun hx => h (List.mem_cons_of_mem a hx)
    simp [pyIndex, ha, ih h']

/-- A duplicate-free list contained in another is no longer than it. -/
theorem nodup_length_le {α : Type} (l l' : List α) (hnd : l.Nodup)
    (hsub : ∀ x ∈ l, x ∈ l') : l.length ≤ l'.length :=
  List.Subperm.length_le (List.subperm_of_subset hnd hsub)

/-- Injectivity on members extracted from a duplicate-free mapped list. -/
theorem nodup_map_inj {α β : Type} {f : α → β} {l : List α}
    (hnd : (l.map f).Nodup) :
    ∀ {x y : α}, x ∈ l → y ∈ l → f x = f y → x = y := by
  induction l with
  | nil => intro x y hx _ _; simp at hx
  | cons a tl ih =>
    intro x y hx hy hf
    rw [List.map_cons, List.nodup_cons] at hnd
    rcases List.mem_cons.mp hx with rfl | hx'
    · rcases List.mem_cons.mp hy with rfl | hy'
      · rfl
      · exact absurd (hf ▸ List.mem_map_of_mem f hy') hnd.1
    · rcases List.mem_cons.mp hy with rfl | hy'
      · exact absurd (hf ▸ List.mem_map_of_mem f hx') hnd.1
      · exact ih hnd.2 hx' hy' hf

/-- With unique ids, the dependency-graph row of a task's id is its own
dependency list. -/
theorem graphGet_eq (tasks : List Task) (task : Task)
    (hnd : (tasks.map taskId).Nodup) (hmem : task ∈ tasks) :
    graphGet tasks (taskId task) = task.dependencies := by
  unfold graphGet
  have hex : (tasks.reverse.find? (fun t => taskId t == taskId task)).isSome := by
    rw [List.find?_isSome]
    exact ⟨task, List.mem_reverse.mpr hmem, by simp⟩
  obtain ⟨u, hu⟩ := Option.isSome_iff_exists.mp hex
  rw [hu]
  have hpu := List.find?_some hu
  have humem : u ∈ tasks := List.mem_reverse.mp (List.mem_of_find?_eq_some hu)
  have heq : u = task := nodup_map_inj hnd humem hmem (by simpa using hpu)
  show u.dependencies = task.dependencies
  rw [heq]

/-- Cycles already recorded survive any further traversal. -/
theorem dfsGo_cycles_mono (tasks : List Task) :
    ∀ (fuel : Nat) (node : String) (path : List String) (st : DfsState)
      (c : List String), c ∈ st.cycles → c ∈ (dfsGo tasks fuel node path st).cycles := by
  intro fuel
  induction fuel with
  | zero => intro node path st c hc; simpa [dfsGo] using hc
  | succ f ih =>
    intro node path st c hc
    simp only [dfsGo]
    split_ifs with h1 h2
    · exact List.mem_append_left _ hc
    · exact hc
    · exact @foldl_preserve String DfsState (fun s => c ∈ s.cycles)
        (fun s nb => dfsGo tasks f nb (path ++ [node]) s) _ _ hc
        (fun b x _ hb => ih x (path ++ [node]) b c hb)

/-- Visited nodes stay visited. -/
theorem dfsGo_visited_mono (tasks : List Task) :
    ∀ (fuel : Nat) (node : String) (path : List String) (st : DfsState)
      (x : String), x ∈ st.visited → x ∈ (dfsGo tasks fuel node path st).visited := by
  intro fuel
  induction fuel with
  | zero => intro node path st x hx; simpa [dfsGo] using hx
  | succ f ih =>
    intro node path st x hx
    simp only [dfsGo]
    split_ifs with h1 h2
    · exact hx
    · exact hx
    · exact @foldl_preserve String DfsState (fun s => x ∈ s.visited)
        (fun s nb => dfsGo tasks f nb (path ++ [node]) s) _ _
        (List.mem_append_left _ hx)
        (fun b nb _ hb => ih nb (path ++ [node]) b x hb)

/-- A fresh node examined with positive fuel enters the visited set. -/
theorem dfsGo_visits (tasks : List Task) (f : Nat) (node : String)
    (path : List String) (st : DfsState) (hf : 1 ≤ f) (h1 : node ∉ path)
    (h2 : node ∉ st.visited) :
    node ∈ (dfsGo tasks f node path st).visited := by
  obtain ⟨f', rfl⟩ : ∃ f', f = f' + 1 := ⟨f - 1, by omega⟩
  simp only [dfsGo]
  rw [if_neg h1, if_neg h2]
  exact @foldl_preserve String DfsState (fun s => node ∈ s.visited)
    (fun s nb => dfsGo tasks f' nb (path ++ [node]) s) _ _
    (List.mem_append_right _ (List.mem_cons_self node []))
    (fun b nb _ hb => dfsGo_visited_mono tasks f' nb (path ++ [node]) b node hb)

/-- Every cycle the traversal records is a closed walk over batch ids. -/
theorem dfsGo_good (tasks : List Task) :
    ∀ (fuel : Nat) (node : String) (path : List String) (st : DfsState),
      node ∈ taskIdsOf tasks → (∀ x ∈ path, x ∈ taskIdsOf tasks) →
      (∀ c ∈ st.cycles, GoodCycle tasks c) →
      ∀ c ∈ (dfsGo tasks fuel node path st).cycles, GoodCycle tasks c := by
  intro fuel
  induction fuel with
  | zero =>
    intro node path st _ _ hst c hc
    rw [dfsGo] at hc
    exact hst c hc
  | succ f ih =>
    intro node path st hnode hpath hst c hc
    simp only [dfsGo] at hc
    by_cases h1 : node ∈ path
    · rw [if_pos h1] at hc
      rcases List.mem_append.mp hc with hold | hnew
      · exact hst c hold
      · obtain ⟨s, hs⟩ := pyIndex_drop node path h1
        have hceq : c = path.drop (pyIndex node path) ++ [node] := by
          simpa using hnew
        constructor
        · exact ⟨node, s, by rw [hceq, hs]; simp⟩
        · intro y hy
          rw [hceq] at hy
          rcases List.mem_append.mp hy with hy' | hy'
          · exact hpath y (List.drop_subset _ path hy')
          · rw [List.mem_singleton.mp hy']
            exact hnode
    · rw [if_neg h1] at hc
      by_cases h2 : node ∈ st.visited
      · rw [if_pos h2] at hc
        exact hst c hc
      · rw [if_neg h2] at hc
        refine @foldl_preserve String DfsState (fun s => ∀ c ∈ s.cycles, GoodCycle tasks c)
          (fun s nb => dfsGo tasks f nb (path ++ [node]) s) _
          ⟨st.visited ++ [node], st.cycles⟩ hst ?_ c hc
        intro b nb hnb hb
        have hnb' : nb ∈ taskIdsOf tasks :=
          of_decide_eq_true (List.mem_filter.mp hnb).2
        refine ih nb (path ++ [node]) b hnb' ?_ hb
        intro x hx
        rcases List.mem_append.mp hx with hx' | hx'
        · exact hpath x hx'
        · rw [List.mem_singleton.mp hx']
          exact hnode

/-- Every cycle reported by `detect_circular_dependencies` is a closed
walk over batch ids. -/
theorem detect_cycles_good (tasks : List Task) :
    ∀ c ∈ detect_circular_dependencies tasks, GoodCycle tasks c := by
  intro c hc
  simp only [detect_circular_dependencies] at hc
  refine @foldl_preserve String DfsState (fun st => ∀ c ∈ st.cycles, GoodCycle tasks c)
    (fun st tid => if tid ∈ st.visited then st
      else dfsGo tasks ((taskIdsOf tasks).length + 2) tid [] st)
    (taskIdsOf tasks) ⟨[], []⟩ ?_ ?_ c hc
  · intro c' hc'
    simp at hc'
  · intro b tid htid hb
    show ∀ c' ∈ (if tid ∈ b.visited then b
      else dfsGo tasks ((taskIdsOf tasks).length + 2) tid [] b).cycles, GoodCycle tasks c'
    by_cases hv : tid ∈ b.visited
    · rw [if_pos hv]
      exact hb
    · rw [if_neg hv]
      exact dfsGo_good tasks _ tid [] b htid (by simp) hb

/-! ### Claim C4 -/

/-- Claim C4: every cycle in the list returned by
`detect_circular_dependencies` is a non-empty sequence of task ids whose
first element equals its last element (the repeated id marks closure of
the walk). -/
theorem detect_cycles_closed (tasks : List Task) (c : List String)
    (hc : c ∈ detect_circular_dependencies tasks) :
    c ≠ [] ∧ c.head? = c.getLast? ∧ ∀ y ∈ c, y ∈ taskIdsOf tasks := by
  obtain ⟨⟨x, s, rfl⟩, hmem⟩ := detect_cycles_good tasks c hc
  refine ⟨by simp, ?_, hmem⟩
  rw [List.head?_cons, show x :: (s ++ [x]) = (x :: s) ++ [x] by simp,
    List.getLast?_concat]

/-- Witness for C4 on a concrete self-dependent batch. -/
theorem detect_cycles_closed_witness :
    (["A", "A"] ∈ detect_circular_dependencies [selfDepTask]) ∧
      (["A", "A"] ≠ ([] : List String) ∧
        (["A", "A"] : List String).head? = (["A", "A"] : List String).getLast? ∧
        ∀ y ∈ (["A", "A"] : List String), y ∈ taskIdsOf [selfDepTask]) :=
  ⟨by decide, detect_cycles_closed [selfDepTask] ["A", "A"] (by decide)⟩


/-! ### Claim C5: self-dependency cycles -/

/-- Appending a fresh element preserves freedom from duplicates. -/
theorem nodup_append_singleton {l : List String} {x : String}
    (hnd : l.Nodup) (hx : x ∉ l) : (l ++ [x]).Nodup := by
  rw [List.nodup_append]
  exact ⟨hnd, List.nodup_singleton x,
    fun a ha hax => hx ((List.mem_singleton.mp hax) ▸ ha)⟩

/-- Calling the traversal on a node already at the end of the path
records the two-element cycle of that node. -/
theorem dfsGo_selfcycle_step (tasks : List Task) (f : Nat) (t : String)
    (path : List String) (s : DfsState) (hnp : t ∉ path) (hf : 1 ≤ f) :
    [t, t] ∈ (dfsGo tasks f t (path ++ [t]) s).cycles := by
  obtain ⟨f', rfl⟩ : ∃ f', f = f' + 1 := ⟨f - 1, by omega⟩
  simp only [dfsGo]
  rw [if_pos (by simp : t ∈ path ++ [t]), pyIndex_append_self t path hnp,
    List.drop_left]
  simp

/-- If a task id with a self-loop edge becomes visited during a
traversal whose fuel dominates the remaining path budget, the
two-element self cycle is recorded. -/
theorem dfsGo_selfloop (tasks : List Task) (t : String)
    (hsl : t ∈ graphGet tasks t) (ht : t ∈ taskIdsOf tasks) :
    ∀ (fuel : Nat) (node : String) (path : List String) (st : DfsState),
      node ∈ taskIdsOf tasks →
      path.Nodup → (∀ x ∈ path, x ∈ taskIdsOf tasks) →
      (taskIdsOf tasks).length + 2 ≤ fuel + path.length →
      t ∉ st.visited →
      t ∈ (dfsGo tasks fuel node path st).visited →
      [t, t] ∈ (dfsGo tasks fuel node path st).cycles := by
  intro fuel
  induction fuel with
  | zero =>
    intro node path st _ _ _ _ hnv hv
    rw [dfsGo] at hv
    exact absurd hv hnv
  | succ f ih =>
    intro node path st hnode hnd hsub hfuel hnv hv
    have hplen : path.length ≤ (taskIdsOf tasks).length :=
      nodup_length_le path (taskIdsOf tasks) hnd hsub
    simp only [dfsGo] at hv ⊢
    by_cases h1 : node ∈ path
    · rw [if_pos h1] at hv ⊢
      exact absurd hv hnv
    · rw [if_neg h1] at hv ⊢
      by_cases h2 : node ∈ st.visited
      · rw [if_pos h2] at hv ⊢
        exact absurd hv hnv
      · rw [if_neg h2] at hv ⊢
        by_cases heq : t = node
        · subst heq
          have htn : t ∈ (graphGet tasks t).filter
              (fun nb => decide (nb ∈ taskIdsOf tasks)) :=
            List.mem_filter.mpr ⟨hsl, by simp [ht]⟩
          have hstep : ∀ (l : List String) (s : DfsState), t ∈ l →
              [t, t] ∈ (l.foldl
                (fun s nb => dfsGo tasks f nb (path ++ [t]) s) s).cycles := by
            intro l
            induction l with
            | nil => intro s hl; simp at hl
            | cons a as ihl =>
              intro s hl
              rw [List.foldl_cons]
              by_cases ha : a = t
              · subst ha
                exact @foldl_preserve String DfsState (fun b => [a, a] ∈ b.cycles)
                  (fun s nb => dfsGo tasks f nb (path ++ [a]) s) as _
                  (dfsGo_selfcycle_step tasks f a path s h1 (by omega))
                  (fun b x _ hb => dfsGo_cycles_mono tasks f x (path ++ [a]) b _ hb)
              · rcases List.mem_cons.mp hl with he | h'
                · exact absurd he.symm ha
                · exact ihl _ h'
          exact hstep _ _ htn
        · have hnv1 : t ∉ st.visited ++ [node] := by
            intro hmem
            rcases List.mem_append.mp hmem with h | h
            · exact hnv h
            · exact heq (List.mem_singleton.mp h)
          have hstep : ∀ (l : List String) (s : DfsState),
              (∀ nb ∈ l, nb ∈ taskIdsOf tasks) → t ∉ s.visited →
              t ∈ (l.foldl (fun s nb => dfsGo tasks f nb (path ++ [node]) s) s).visited →
              [t, t] ∈ (l.foldl (fun s nb => dfsGo tasks f nb (path ++ [node]) s) s).cycles := by
            intro l
            induction l with
            | nil =>
              intro s _ hnvs hvs
              exact absurd hvs hnvs
            | cons a as ihl =>
              intro s hsubl hnvs hvs
              rw [List.foldl_cons] at hvs ⊢
              by_cases hv' : t ∈ (dfsGo tasks f a (path ++ [node]) s).visited
              · have hcy : [t, t] ∈ (dfsGo tasks f a (path ++ [node]) s).cycles := by
                  refine ih a (path ++ [node]) s (hsubl a (List.mem_cons_self a as))
                    (nodup_append_singleton hnd h1) ?_ ?_ hnvs hv'
                  · intro x hx
                    rcases List.mem_append.mp hx with hx' | hx'
                    · exact hsub x hx'
                    · rw [List.mem_singleton.mp hx']
                      exact hnode
                  · rw [List.length_append, List.length_singleton]
                    omega
                exact @foldl_preserve String DfsState (fun b => [t, t] ∈ b.cycles)
                  (fun s nb => dfsGo tasks f nb (path ++ [node]) s) as _ hcy
                  (fun b x _ hb => dfsGo_cycles_mono tasks f x (path ++ [node]) b _ hb)
              · exact ihl _ (fun nb h => hsubl nb (List.mem_cons_of_mem a h)) hv' hvs
          exact hstep _ _
            (fun nb hnb => of_decide_eq_true (List.mem_filter.mp hnb).2) hnv1 hv

/-- Cycles survive the outer start-node loop. -/
theorem outer_fold_mono (tasks : List Task) (F : Nat) :
    ∀ (l : List String) (s : DfsState) (c : List String), c ∈ s.cycles →
      c ∈ (l.foldl (fun st tid => if tid ∈ st.visited then st
        else dfsGo tasks F tid [] st) s).cycles := by
  intro l s c hc
  refine @foldl_preserve String DfsState (fun b => c ∈ b.cycles)
    (fun st tid => if tid ∈ st.visited then st else dfsGo tasks F tid [] st)
    l s hc ?_
  intro b tid _ hb
  show c ∈ (if tid ∈ b.visited then b else dfsGo tasks F tid [] b).cycles
  by_cases hv : tid ∈ b.visited
  · rw [if_pos hv]
    exact hb
  · rw [if_neg hv]
    exact dfsGo_cycles_mono tasks F tid [] b c hb

/-- Over the outer loop, a self-looping id that occurs among the start
nodes ends with its two-element cycle recorded. -/
theorem outer_selfloop (tasks : List Task) (t : String)
    (hsl : t ∈ graphGet tasks t) (ht : t ∈ taskIdsOf tasks) :
    ∀ (l : List String) (s : DfsState),
      (∀ x ∈ l, x ∈ taskIdsOf tasks) → t ∈ l →
      (t ∈ s.visited → [t, t] ∈ s.cycles) →
      [t, t] ∈ (l.foldl (fun st tid => if tid ∈ st.visited then st
        else dfsGo tasks ((taskIdsOf tasks).length + 2) tid [] st) s).cycles := by
  intro l
  induction l with
  | nil =>
    intro s _ hl _
    simp at hl
  | cons a as ihl =>
    intro s hsub hl hinv
    rw [List.foldl_cons]
    by_cases hv : a ∈ s.visited
    · rw [if_pos hv]
      rcases List.mem_cons.mp hl with rfl | hl'
      · exact outer_fold_mono tasks _ as s [t, t] (hinv hv)
      · exact ihl s (fun x hx => hsub x (List.mem_cons_of_mem a hx)) hl' hinv
    · rw [if_neg hv]
      have hinv' : t ∈ (dfsGo tasks ((taskIdsOf tasks).length + 2) a [] s).visited →
          [t, t] ∈ (dfsGo tasks ((taskIdsOf tasks).length + 2) a [] s).cycles := by
        intro htv
        by_cases htsv : t ∈ s.visited
        · exact dfsGo_cycles_mono tasks _ a [] s _ (hinv htsv)
        · exact dfsGo_selfloop tasks t hsl ht _ a [] s
            (hsub a (List.mem_cons_self a as)) List.nodup_nil (by simp)
            (by simp) htsv htv
      rcases List.mem_cons.mp hl with rfl | hl'
      · have htv : t ∈ (dfsGo tasks ((taskIdsOf tasks).length + 2) t [] s).visited :=
          dfsGo_visits tasks _ t [] s (by omega) (List.not_mem_nil t) hv
        exact outer_fold_mono tasks _ as _ [t, t] (hinv' htv)
      · exact ihl _ (fun x hx => hsub x (List.mem_cons_of_mem a hx)) hl' hinv'

/-- Claim C5: for every batch with unique ids (the data model requires
ids unique within a batch) containing a task whose dependency list
includes its own id, `detect_circular_dependencies` returns the
length-two cycle made of that task's id twice. -/
theorem detect_selfdep_cycle (tasks : List Task) (task : Task)
    (hnd : (tasks.map taskId).Nodup) (hmem : task ∈ tasks)
    (hdep : taskId task ∈ task.dependencies) :
    [taskId task, taskId task] ∈ detect_circular_dependencies tasks := by
  have hsl : taskId task ∈ graphGet tasks (taskId task) := by
    rw [graphGet_eq tasks task hnd hmem]
    exact hdep
  have htid : taskId task ∈ taskIdsOf tasks := by
    rw [taskIdsOf, List.mem_dedup]
    exact List.mem_map_of_mem taskId hmem
  simp only [detect_circular_dependencies]
  exact outer_selfloop tasks (taskId task) hsl htid (taskIdsOf tasks) ⟨[], []⟩
    (fun x hx => hx) htid (fun h => absurd h (List.not_mem_nil _))

/-- Witness for C5 on a concrete self-dependent batch. -/
theorem detect_selfdep_cycle_witness :
    (([selfDepTask].map taskId).Nodup ∧ selfDepTask ∈ [selfDepTask] ∧
        taskId selfDepTask ∈ selfDepTask.dependencies) ∧
      [taskId selfDepTask, taskId selfDepTask]
        ∈ detect_circular_dependencies [selfDepTask] :=
  ⟨⟨by decide, by decide, by decide⟩,
    detect_selfdep_cycle [selfDepTask] selfDepTask (by decide) (by decide) (by decide)⟩

end Scoring
